import Mathlib

/-!
# Block-Explorer: the hash-content resolver

A shallow embedding of the output resolver, the hash dispatch, the block
assembly and the ledger client of the explorer (`hashpage.go`, `api.go`,
`explorer.go`, `api/api.go`), followed by the properties established about
them.

Conventions of the embedding.

* A Go `[]byte` payload and a Go `string` are both a `String`; a nil slice is
  the empty string.
* A `crypto.Hash` (a `[32]byte`) is the list of its bytes.
* A Go `error` is an `Option String`: `none` is `nil`, `some m` is an error
  whose `Error()` text is `m`.
* A Go function with results `(v, err)` returns the pair, so that a zero value
  returned together with a nil error stays visible.
* The ID derivations of the Sia `types` package (`SiacoinOutputID`,
  `FileContractID`, `StorageProofOutputID`, `MinerPayoutID`) are hashes computed
  by an external library; they are taken as parameters (`IDScheme`).
-/

namespace BlockExplorer

/-! ## Data model (the fields of the Sia types that the explorer reads) -/

/-- The type `crypto.Hash`, a 32-byte array, as the list of its bytes. -/
abbrev Hash := List Nat

/-- The zero value `crypto.Hash{}`. -/
def zeroHash : Hash := List.replicate 32 0

/-- The type `types.SiacoinOutput`: a value and a destination address. -/
structure SiacoinOutput where
  Value : Nat
  UnlockHash : Hash
deriving DecidableEq, Repr

/-- The zero value `types.SiacoinOutput{}`. -/
def SiacoinOutput.zero : SiacoinOutput := { Value := 0, UnlockHash := zeroHash }

/-- The type `types.FileContract`, restricted to its two proof-output lists. -/
structure FileContract where
  ValidProofOutputs : List SiacoinOutput
  MissedProofOutputs : List SiacoinOutput
deriving DecidableEq, Repr

/-- The type `types.FileContractRevision`: the declared contract ID and the
revised proof-output lists. -/
structure FileContractRevision where
  ParentID : Hash
  NewValidProofOutputs : List SiacoinOutput
  NewMissedProofOutputs : List SiacoinOutput
deriving DecidableEq, Repr

/-- The type `types.Transaction`, restricted to the lists scanned by the
resolver. -/
structure Transaction where
  SiacoinOutputs : List SiacoinOutput
  FileContracts : List FileContract
  FileContractRevisions : List FileContractRevision
deriving DecidableEq, Repr

/-- The type `types.Block`, restricted to payouts and transactions. -/
structure Block where
  MinerPayouts : List SiacoinOutput
  Transactions : List Transaction
deriving DecidableEq, Repr

/-- The deterministic ID derivations of the Sia `types` package. -/
structure IDScheme where
  /-- The method `tx.SiacoinOutputID(i)`. -/
  SiacoinOutputID : Transaction → Nat → Hash
  /-- The method `tx.FileContractID(i)`. -/
  FileContractID : Transaction → Nat → Hash
  /-- The method `fcid.StorageProofOutputID(proofValid, j)`. -/
  StorageProofOutputID : Hash → Bool → Nat → Hash
  /-- The method `b.MinerPayoutID(i)`. -/
  MinerPayoutID : Block → Nat → Hash

/-! ## Output resolver (`hashpage.go`, `findOutputBlock`, `findOutputTransaction`) -/

/-- One `for i, output := range outputs` loop with an early return: the first
output, counting from index `i`, whose derived ID `idAt i` equals `oID`. -/
def scanOutputs (oID : Hash) (idAt : Nat → Hash) : Nat → List SiacoinOutput → Option SiacoinOutput
  | _, [] => none
  | i, output :: rest =>
    if oID = idAt i then some output else scanOutputs oID idAt (i + 1) rest

/-- The loop over `tx.FileContracts`: for contract `i`, the valid proof outputs
and then the missed proof outputs, under the ID `tx.FileContractID(i)`. -/
def scanFileContracts (ids : IDScheme) (oID : Hash) (tx : Transaction) :
    Nat → List FileContract → Option SiacoinOutput
  | _, [] => none
  | i, fc :: rest =>
    let fcid := ids.FileContractID tx i
    match scanOutputs oID (ids.StorageProofOutputID fcid true) 0 fc.ValidProofOutputs with
    | some output => some output
    | none =>
      match scanOutputs oID (ids.StorageProofOutputID fcid false) 0 fc.MissedProofOutputs with
      | some output => some output
      | none => scanFileContracts ids oID tx (i + 1) rest

/-- The loop over `tx.FileContractRevisions`: the new valid and then the new
missed proof outputs, under the revision's `ParentID`. -/
def scanRevisions (ids : IDScheme) (oID : Hash) : List FileContractRevision → Option SiacoinOutput
  | [] => none
  | revision :: rest =>
    let fcid := revision.ParentID
    match scanOutputs oID (ids.StorageProofOutputID fcid true) 0 revision.NewValidProofOutputs with
    | some output => some output
    | none =>
      match scanOutputs oID (ids.StorageProofOutputID fcid false) 0
          revision.NewMissedProofOutputs with
      | some output => some output
      | none => scanRevisions ids oID rest

/-- The function `findOutputBlock`: scan the miner payouts of a block. -/
def findOutputBlock (ids : IDScheme) (oID : Hash) (b : Block) : SiacoinOutput × Option String :=
  match scanOutputs oID (ids.MinerPayoutID b) 0 b.MinerPayouts with
  | some output => (output, none)
  | none => (SiacoinOutput.zero, some "output not found in block")

/-- The function `findOutputTransaction`: scan the standard outputs, then the
file contracts, then the revisions of a transaction. -/
def findOutputTransaction (ids : IDScheme) (oID : Hash) (tx : Transaction) :
    SiacoinOutput × Option String :=
  match scanOutputs oID (ids.SiacoinOutputID tx) 0 tx.SiacoinOutputs with
  | some output => (output, none)
  | none =>
    match scanFileContracts ids oID tx 0 tx.FileContracts with
    | some output => (output, none)
    | none =>
      match scanRevisions ids oID tx.FileContractRevisions with
      | some output => (output, none)
      | none => (SiacoinOutput.zero, some "output not found in transaction")

/-! ### The search order in the words of the specification -/

/-- The outputs of one list paired with their derived IDs, by index. -/
def taggedOutputs (idAt : Nat → Hash) (outputs : List SiacoinOutput) : List (Hash × SiacoinOutput) :=
  outputs.enum.map (fun p => (idAt p.1, p.2))

/-- Category (a): the standard outputs by index. -/
def standardCandidates (ids : IDScheme) (tx : Transaction) : List (Hash × SiacoinOutput) :=
  taggedOutputs (ids.SiacoinOutputID tx) tx.SiacoinOutputs

/-- Category (b): for each file contract in order, its valid proof outputs
followed by its missed proof outputs. -/
def contractCandidates (ids : IDScheme) (tx : Transaction) : List (Hash × SiacoinOutput) :=
  tx.FileContracts.enum.flatMap (fun p =>
    taggedOutputs (ids.StorageProofOutputID (ids.FileContractID tx p.1) true) p.2.ValidProofOutputs
      ++ taggedOutputs (ids.StorageProofOutputID (ids.FileContractID tx p.1) false)
          p.2.MissedProofOutputs)

/-- Category (c): for each revision in order, its new valid proof outputs
followed by its new missed proof outputs, under the declared `ParentID`. -/
def revisionCandidates (ids : IDScheme) (tx : Transaction) : List (Hash × SiacoinOutput) :=
  tx.FileContractRevisions.flatMap (fun r =>
    taggedOutputs (ids.StorageProofOutputID r.ParentID true) r.NewValidProofOutputs
      ++ taggedOutputs (ids.StorageProofOutputID r.ParentID false) r.NewMissedProofOutputs)

/-- The whole search sequence: (a), then (b), then (c). -/
def searchSequence (ids : IDScheme) (tx : Transaction) : List (Hash × SiacoinOutput) :=
  standardCandidates ids tx ++ contractCandidates ids tx ++ revisionCandidates ids tx

/-- First match wins: the first candidate whose derived ID is the target, or
the not-found error when there is none. -/
def firstMatch (oID : Hash) (candidates : List (Hash × SiacoinOutput)) :
    SiacoinOutput × Option String :=
  match candidates.find? (fun p => decide (oID = p.1)) with
  | some p => (p.2, none)
  | none => (SiacoinOutput.zero, some "output not found in transaction")

/-! ## Responses of the ledger service (`modules` package), fields read by the explorer -/

/-- The envelope `responseData` of `hashpage.go`: only the discriminator. A
payload without the field decodes to the empty string. -/
structure responseData where
  ResponseType : String
deriving DecidableEq, Repr

/-- The type `modules.BlockResponse`; `Height` is a `uint64`. -/
structure BlockResponse where
  Block : Block
  Height : Nat
deriving DecidableEq, Repr

/-- The type `modules.TransactionResponse`. -/
structure TransactionResponse where
  Tx : Transaction
deriving DecidableEq, Repr

/-- The type `modules.OutputResponse`: the entity that created the output and
the transaction that spent it. -/
structure OutputResponse where
  OutputTx : Hash
  InputTx : Hash
deriving DecidableEq, Repr

/-- The type `modules.AddrResponse`. -/
structure AddrResponse where
  Txns : List Hash
deriving DecidableEq, Repr

/-- The type `modules.FcResponse`. -/
structure FcResponse where
  Contract : Hash
  Revisions : List Hash
  Proof : Hash
deriving DecidableEq, Repr

/-- The type `modules.ExplorerBlockData`: one block summary. -/
structure ExplorerBlockData where
  ID : Hash
  Target : Hash
  Size : Nat
deriving DecidableEq, Repr

/-- The root values handed to `parseTemplate` (`blockRoot`, the transaction
response, `outputRoot`, `addressRoot`, `filecontractRoot`). -/
inductive TemplateRoot where
  | blockRoot (Block : Block) (Height : Nat) (Target : Hash) (Size : Nat) (Hashes : Nat)
  | transaction (t : TransactionResponse)
  | outputRoot (OutputTx : Hash) (InputTx : Hash) (OutputID : Hash)
  | addressRoot (Txns : List Hash) (Addr : List Nat)
  | filecontractRoot (Contract : Hash) (Revisions : List Hash) (Proof : Hash) (FcID : Hash)
deriving DecidableEq, Repr

/-! ## The Go runtime and the server -/

/-- A request built by `http.NewRequest`. -/
structure HTTPRequest where
  Method : String
  URL : String
  Header : List (String × String)
deriving DecidableEq, Repr

/-- The call `req.Header.Set(key, value)`. -/
def HTTPRequest.setHeader (req : HTTPRequest) (key value : String) : HTTPRequest :=
  { req with Header := (key, value) :: req.Header.filter (fun kv => kv.1 != key) }

/-- A response of the HTTP client: the status code and what
`ioutil.ReadAll(resp.Body)` returns, the bytes read and the read error. -/
structure HTTPResponse where
  StatusCode : Nat
  ReadAll : String × Option String
deriving DecidableEq, Repr

/-- The Go standard library as the explorer uses it: scanning of request
parameters, JSON decoding into each target type, the HTTP client, and the hex
rendering of an ID. -/
structure Runtime where
  /-- The call `fmt.Sscanf(s, "%x", &hash)`. -/
  sscanHex : String → Except String (List Nat)
  /-- The call `fmt.Sscanf(s, "%d", &height)`. -/
  sscanDec : String → Except String Nat
  /-- The call `json.Unmarshal(itemJSON, &rd)`. -/
  unmarshalResponseData : String → Except String responseData
  /-- The call `json.Unmarshal(itemJSON, &b)`. -/
  unmarshalBlockResponse : String → Except String BlockResponse
  /-- The call `json.Unmarshal(itemJSON, &t)`. -/
  unmarshalTransactionResponse : String → Except String TransactionResponse
  /-- The call `json.Unmarshal(outJSON, &ot)`. -/
  unmarshalOutputResponse : String → Except String OutputResponse
  /-- The call `json.Unmarshal(addrJSON, &ad)`. -/
  unmarshalAddrResponse : String → Except String AddrResponse
  /-- The call `json.Unmarshal(fcJSON, &fi)`. -/
  unmarshalFcResponse : String → Except String FcResponse
  /-- The call `json.Unmarshal(blocksJson, &blocks)`: the decoded list and the
  error, as `GetBlockData` returns both. -/
  unmarshalBlockData : String → List ExplorerBlockData × Option String
  /-- The call `http.NewRequest(method, url, nil)`. -/
  newRequest : String → String → Except String HTTPRequest
  /-- The call `client.Do(req)`. -/
  clientDo : HTTPRequest → Except String HTTPResponse
  /-- The call `http.Get(url)`. -/
  httpGet : String → Except String HTTPResponse
  /-- The `String()` method of an ID. -/
  hexString : Hash → String

/-- The struct `ExploreServer`. Its methods that live in files other than the
ones embedded here (`apiGetHash`, `apiGetBlockData`, `getBlockRange`,
`parseTemplate`) and the function `expectedHashes` are carried as fields;
`parseTemplate` returns the Go pair `(page, err)`. -/
structure ExploreServer where
  url : String
  apiGetHash : List Nat → Except String String
  apiGetBlockData : Nat → Nat → Except String (List ExplorerBlockData)
  getBlockRange : Nat → Nat → Except String (List ExplorerBlockData)
  parseTemplate : String → TemplateRoot → String × Option String
  expectedHashes : Hash → Nat

/-- What a handler did to its `http.ResponseWriter`. -/
inductive Reply where
  /-- The call `http.Error(w, msg, code)`. -/
  | httpError (msg : String) (code : Nat)
  /-- The call `w.Write(page)` alone: status 200. -/
  | write (page : String)
  /-- The calls `w.WriteHeader(code)` and `es.logger.Print(err)`. -/
  | writeHeader (code : Nat) (logged : String)
  /-- The call `writeJson(w, json, httpStatus)`. -/
  | writeJson (json : String) (httpStatus : Nat)
  /-- The call `http.Redirect(w, r, url, code)`. -/
  | redirect (url : String) (code : Nat)
  /-- A run-time panic before anything was written. -/
  | panic (msg : String)
deriving DecidableEq, Repr

/-- The status code of a reply, if one was sent. -/
def Reply.status : Reply → Option Nat
  | .httpError _ code => some code
  | .write _ => some 200
  | .writeHeader code _ => some code
  | .writeJson _ httpStatus => some httpStatus
  | .redirect _ code => some code
  | .panic _ => none

/-- The outcome of running a Go function: it returns or it panics. -/
inductive Ran (α : Type) where
  | returned (a : α)
  | panicked (msg : String)
deriving DecidableEq, Repr

/-- The text of the panic raised by `blockSummaries[0]` on an empty slice. -/
def indexOutOfRange : String := "runtime error: index out of range"

/-- The successor of a `types.BlockHeight` (a `uint64`). -/
def nextHeight (height : Nat) : Nat := (height + 1) % 2 ^ 64

/-- The statement `copy(id[:], b[:])` into a zero 32-byte array. -/
def copyHash (b : List Nat) : Hash := b.take 32 ++ List.replicate (32 - b.length) 0

/-! ## Ledger client (`api.go`, `api/api.go`) -/

/-- The method `ExploreServer.apiGet`: a GET against the daemon; the named
results `(response, err)` are returned as a pair. -/
def apiGet (rt : Runtime) (es : ExploreServer) (apiCall : String) : String × Option String :=
  match rt.newRequest "GET" (es.url ++ apiCall) with
  | .error e => ("", some e)
  | .ok req =>
    match rt.clientDo (req.setHeader "User-Agent" "Sia-Agent") with
    | .error e => ("", some e)
    | .ok resp =>
      match resp.ReadAll with
      | (response, some e) => (response, some e)
      | (response, none) =>
        if resp.StatusCode ≠ 200 then
          (response, some ("Sia Daemon Returned Non-200: " ++ response))
        else (response, none)

/-- The struct `ApiLink` of package `api`. -/
structure ApiLink where
  url : String
  port : String
deriving DecidableEq, Repr

/-- The method `ApiLink.Get`: the read error is not checked before the status
is, and is what is returned on a 200. -/
def ApiLink.Get (rt : Runtime) (link : ApiLink) (apiCall : String) : String × Option String :=
  match rt.httpGet (link.url ++ link.port ++ apiCall) with
  | .error e => ("", some e)
  | .ok resp =>
    match resp.ReadAll with
    | (response, err) =>
      if resp.StatusCode ≠ 200 then
        (response, some ("Sia Daemon Returned Non-200: " ++ response))
      else (response, err)

/-- The struct `parameter` of package `api`. -/
structure parameter where
  Key : String
  Value : String
deriving DecidableEq, Repr

/-- The loop of `ApiLink.Query`: `n` is `len(parameters)`, `i` the index of the
head of the remaining list; every pair but the one at index `n - 1` is followed
by an ampersand. -/
def queryLoop (n : Nat) : String → Nat → List parameter → String
  | apiCall, _, [] => apiCall
  | apiCall, i, param :: rest =>
    if (i : Int) ≠ (n : Int) - 1 then
      queryLoop n (apiCall ++ (param.Key ++ "=" ++ param.Value ++ "&")) (i + 1) rest
    else
      queryLoop n (apiCall ++ (param.Key ++ "=" ++ param.Value)) (i + 1) rest

/-- The path that `ApiLink.Query` hands to `Get`. -/
def queryPath (apiCall : String) (parameters : List parameter) : String :=
  queryLoop parameters.length (apiCall ++ "?") 0 parameters

/-- The method `ApiLink.Query`. -/
def ApiLink.Query (rt : Runtime) (link : ApiLink) (apiCall : String)
    (parameters : List parameter) : String × Option String :=
  ApiLink.Get rt link (queryPath apiCall parameters)

/-- The conversion `int(h)` of a `types.BlockHeight` (a `uint64`) where `int`
has 64 bits: the value is reinterpreted in two's complement. -/
def intOfBlockHeight (h : Nat) : Int :=
  if h % 2 ^ 64 < 2 ^ 63 then ((h % 2 ^ 64 : Nat) : Int) else ((h % 2 ^ 64 : Nat) : Int) - 2 ^ 64

/-- The function `strconv.Itoa`: the decimal rendering, with a minus sign for a
negative number. -/
def Itoa : Int → String
  | .ofNat m => Nat.repr m
  | .negSucc m => "-" ++ Nat.repr (m + 1)

/-- The rest of `GetBlockData` after the query: an error of the query is
returned with a nil list, otherwise the body is decoded. -/
def decodeBlockData (rt : Runtime) :
    String × Option String → List ExplorerBlockData × Option String
  | (_, some e) => ([], some e)
  | (blocksJson, none) => rt.unmarshalBlockData blocksJson

/-- The method `ApiLink.GetBlockData`. -/
def ApiLink.GetBlockData (rt : Runtime) (link : ApiLink) (start end_ : Nat) :
    List ExplorerBlockData × Option String :=
  decodeBlockData rt
    (ApiLink.Query rt link "/blockexplorer/blockdata"
      [{ Key := "start", Value := Itoa (intOfBlockHeight start) },
       { Key := "finish", Value := Itoa (intOfBlockHeight end_) }])

/-- The query string in the words of the specification: the path, a question
mark, and the pairs `key=value` in list order joined by single ampersands. -/
def renderQuery (apiCall : String) (parameters : List parameter) : String :=
  apiCall ++ "?" ++ String.intercalate "&" (parameters.map (fun p => p.Key ++ "=" ++ p.Value))

/-! ## Page builders and hash dispatch (`hashpage.go`) -/

/-- The method `blockPage`: decode the block, fetch its one-element summary
range, index the first summary, render. -/
def blockPage (rt : Runtime) (es : ExploreServer) (blockJSON : String) : Reply :=
  match rt.unmarshalBlockResponse blockJSON with
  | .error e => .httpError e 500
  | .ok b =>
    match es.apiGetBlockData b.Height (nextHeight b.Height) with
    | .error e => .httpError e 500
    | .ok blockSummaries =>
      match blockSummaries with
      | [] => .panic indexOutOfRange
      | summary :: _ =>
        match es.parseTemplate "block.html"
            (.blockRoot b.Block b.Height summary.Target summary.Size
              (es.expectedHashes summary.Target)) with
        | (_, some e) => .httpError e 500
        | (page, none) => .write page

/-- The method `txPage`. -/
def txPage (rt : Runtime) (es : ExploreServer) (txJSON : String) : Reply :=
  match rt.unmarshalTransactionResponse txJSON with
  | .error e => .httpError e 500
  | .ok t =>
    match es.parseTemplate "transaction.html" (.transaction t) with
    | (_, some e) => .httpError e 500
    | (page, none) => .write page

/-- The method `outputPage`. -/
def outputPage (rt : Runtime) (es : ExploreServer) (outJSON : String) (oID : List Nat) : Reply :=
  match rt.unmarshalOutputResponse outJSON with
  | .error e => .httpError e 500
  | .ok ot =>
    match es.parseTemplate "output.html" (.outputRoot ot.OutputTx ot.InputTx (copyHash oID)) with
    | (_, some e) => .httpError e 500
    | (page, none) => .write page

/-- The method `addressPage`. -/
def addressPage (rt : Runtime) (es : ExploreServer) (addrJSON : String) (address : List Nat) :
    Reply :=
  match rt.unmarshalAddrResponse addrJSON with
  | .error e => .httpError e 500
  | .ok ad =>
    match es.parseTemplate "address.html" (.addressRoot ad.Txns address) with
    | (_, some e) => .httpError e 500
    | (page, none) => .write page

/-- The method `contractPage`. -/
def contractPage (rt : Runtime) (es : ExploreServer) (fcJSON : String) (fcid : List Nat) : Reply :=
  match rt.unmarshalFcResponse fcJSON with
  | .error e => .httpError e 500
  | .ok fi =>
    match es.parseTemplate "contract.html"
        (.filecontractRoot fi.Contract fi.Revisions fi.Proof (copyHash fcid)) with
    | (_, some e) => .httpError e 500
    | (page, none) => .write page

/-- The five page builders a hash can be dispatched to. -/
structure PageBuilders where
  blockPage : String → Reply
  txPage : String → Reply
  outputPage : String → List Nat → Reply
  addressPage : String → List Nat → Reply
  contractPage : String → List Nat → Reply

/-- The page builders of the server. -/
def ExploreServer.pages (rt : Runtime) (es : ExploreServer) : PageBuilders :=
  { blockPage := blockPage rt es
    txPage := txPage rt es
    outputPage := outputPage rt es
    addressPage := addressPage rt es
    contractPage := contractPage rt es }

/-- The body of `hashPageHandler` with the page builders it calls made
explicit; `form` is `r.FormValue("h")`. -/
def hashPageHandlerWith (rt : Runtime) (es : ExploreServer) (pb : PageBuilders) (form : String) :
    Reply :=
  match rt.sscanHex form with
  | .error e => .httpError e 400
  | .ok hash =>
    match es.apiGetHash hash with
    | .error e => .httpError e 500
    | .ok itemJSON =>
      match rt.unmarshalResponseData itemJSON with
      | .error e => .httpError e 500
      | .ok rd =>
        if rd.ResponseType = "Block" then pb.blockPage itemJSON
        else if rd.ResponseType = "Transaction" then pb.txPage itemJSON
        else if rd.ResponseType = "Output" then pb.outputPage itemJSON hash
        else if rd.ResponseType = "Address" then pb.addressPage itemJSON hash
        else if rd.ResponseType = "FileContract" then pb.contractPage itemJSON hash
        else .httpError ("siad returned: " ++ itemJSON) 500

/-- The method `hashPageHandler`. -/
def hashPageHandler (rt : Runtime) (es : ExploreServer) (form : String) : Reply :=
  hashPageHandlerWith rt es (es.pages rt) form

/-- The method `parseTransaction`. -/
def parseTransaction (rt : Runtime) (es : ExploreServer) (hash : Hash) :
    Ran (String × Option String) :=
  if hash = zeroHash then .returned ("", none)
  else
    match es.apiGetHash hash with
    | .error e => .returned ("", some e)
    | .ok itemJSON =>
      match rt.unmarshalResponseData itemJSON with
      | .error e => .returned ("", some e)
      | .ok rd =>
        if rd.ResponseType = "Block" then
          match rt.unmarshalBlockResponse itemJSON with
          | .error e => .returned ("", some e)
          | .ok b =>
            match es.apiGetBlockData b.Height (nextHeight b.Height) with
            | .error e => .returned ("", some e)
            | .ok blockSummaries =>
              match blockSummaries with
              | [] => .panicked indexOutOfRange
              | summary :: _ =>
                .returned (es.parseTemplate "block.template"
                  (.blockRoot b.Block b.Height summary.Target summary.Size
                    (es.expectedHashes summary.Target)))
        else if rd.ResponseType = "Transaction" then
          match rt.unmarshalTransactionResponse itemJSON with
          | .error e => .returned ("", some e)
          | .ok t => .returned (es.parseTemplate "transaction.template" (.transaction t))
        else .returned ("", none)

/-- The method `findOutput`; the named results `(sco, err)` start at their zero
values and a bare `return` hands back whatever they hold. -/
def findOutput (rt : Runtime) (es : ExploreServer) (ids : IDScheme) (oID : Hash) :
    SiacoinOutput × Option String :=
  match es.apiGetHash oID with
  | .error e => (SiacoinOutput.zero, some e)
  | .ok outJSON =>
    match rt.unmarshalOutputResponse outJSON with
    | .error e => (SiacoinOutput.zero, some e)
    | .ok or =>
      match es.apiGetHash or.OutputTx with
      | .error e => (SiacoinOutput.zero, some e)
      | .ok itemJSON =>
        match rt.unmarshalResponseData itemJSON with
        | .error e => (SiacoinOutput.zero, some e)
        | .ok rd =>
          if rd.ResponseType = "Block" then
            match rt.unmarshalBlockResponse itemJSON with
            | .error e => (SiacoinOutput.zero, some e)
            | .ok b => findOutputBlock ids oID b.Block
          else if rd.ResponseType = "Transaction" then
            match rt.unmarshalTransactionResponse itemJSON with
            | .error e => (SiacoinOutput.zero, some e)
            | .ok tr => findOutputTransaction ids oID tr.Tx
          else (SiacoinOutput.zero, none)

/-! ## Height lookups (`explorer.go`, `api.go`) -/

/-- The method `heightHandler`; `form` is `r.FormValue("h")`. -/
def heightHandler (rt : Runtime) (es : ExploreServer) (form : String) : Reply :=
  match rt.sscanDec form with
  | .error e => .httpError e 400
  | .ok height =>
    match es.apiGetBlockData height (nextHeight height) with
    | .error e => .httpError e 400
    | .ok blockSummaries =>
      match blockSummaries with
      | [] => .panic indexOutOfRange
      | summary :: _ => .redirect ("hash?h=" ++ rt.hexString summary.ID) 301

/-- The method `getBlockByHeight`; `var` is `mux.Vars(r)["height"]`. A scan
failure is ignored and leaves the height at zero. -/
def getBlockByHeight (rt : Runtime) (es : ExploreServer) (var : String) : Reply :=
  let height := match rt.sscanDec var with
    | .ok h => h
    | .error _ => 0
  match es.getBlockRange height (nextHeight height) with
  | .error e => .writeHeader 500 e
  | .ok blockSummaries =>
    match blockSummaries with
    | [] => .panic indexOutOfRange
    | summary :: _ =>
      match apiGet rt es ("/explorer/gethash?hash=" ++ rt.hexString summary.ID) with
      | (_, some e) => .writeHeader 500 e
      | (blockJson, none) => .writeJson blockJson 200

/-! ## A fixture: a small daemon and ID scheme to run the code on -/

/-- A 32-byte hash whose last byte is `n`. -/
def fixtureHash (n : Nat) : Hash := List.replicate 31 0 ++ [n]

/-- A collision-free stand-in for the Sia ID derivations: an ID lists its
category tag, its index and what it is derived from. -/
def fixtureIDs : IDScheme where
  SiacoinOutputID := fun tx i => [1, i, tx.SiacoinOutputs.length]
  FileContractID := fun tx i => [2, i, tx.FileContracts.length]
  StorageProofOutputID := fun fcid proofValid j => (if proofValid then 3 else 4) :: j :: fcid
  MinerPayoutID := fun b i => [5, i, b.MinerPayouts.length]

/-- Three outputs to tell apart. -/
def outA : SiacoinOutput := { Value := 10, UnlockHash := fixtureHash 1 }

/-- The second fixture output. -/
def outB : SiacoinOutput := { Value := 20, UnlockHash := fixtureHash 2 }

/-- The third fixture output. -/
def outC : SiacoinOutput := { Value := 30, UnlockHash := fixtureHash 3 }

/-- A transaction with two standard outputs, one contract and one revision. -/
def fixtureTx : Transaction where
  SiacoinOutputs := [outA, outB]
  FileContracts := [{ ValidProofOutputs := [outB], MissedProofOutputs := [outC] }]
  FileContractRevisions :=
    [{ ParentID := fixtureHash 9, NewValidProofOutputs := [outC], NewMissedProofOutputs := [outA] }]

/-- A transaction with one file contract, no standard output, and a missed
proof output at index 0. -/
def contractOnlyTx : Transaction where
  SiacoinOutputs := []
  FileContracts := [{ ValidProofOutputs := [outA, outB], MissedProofOutputs := [outC] }]
  FileContractRevisions := []

/-- A block with two miner payouts. -/
def fixtureBlock : Block where
  MinerPayouts := [outA, outB]
  Transactions := [fixtureTx]

/-- A runtime that decodes a handful of named payloads and talks to a daemon
answering 200 on `/ok` and 404 on every other path. -/
def fixtureRuntime : Runtime where
  sscanHex := fun s =>
    if s = "0a" then .ok (fixtureHash 10)
    else if s = "0b" then .ok (fixtureHash 11)
    else if s = "0c" then .ok (fixtureHash 12)
    else .error "expected integer"
  sscanDec := fun s =>
    if s = "100" then .ok 100 else if s = "7" then .ok 7 else .error "expected integer"
  unmarshalResponseData := fun s =>
    if s = "block-100" then .ok { ResponseType := "Block" }
    else if s = "tx" then .ok { ResponseType := "Transaction" }
    else if s = "address" then .ok { ResponseType := "Address" }
    else if s = "output" then .ok { ResponseType := "Output" }
    else if s = "foo" then .ok { ResponseType := "Foo" }
    else if s = "bare" then .ok { ResponseType := "" }
    else .error "invalid character"
  unmarshalBlockResponse := fun s =>
    if s = "block-100" then .ok { Block := fixtureBlock, Height := 100 }
    else .error "invalid character"
  unmarshalTransactionResponse := fun s =>
    if s = "tx" then .ok { Tx := fixtureTx } else .error "invalid character"
  unmarshalOutputResponse := fun s =>
    if s = "output" then .ok { OutputTx := fixtureHash 13, InputTx := zeroHash }
    else .error "invalid character"
  unmarshalAddrResponse := fun s =>
    if s = "address" then .ok { Txns := [fixtureHash 11] } else .error "invalid character"
  unmarshalFcResponse := fun _ => .error "invalid character"
  unmarshalBlockData := fun s =>
    if s = "fine" then ([], none) else ([], some "invalid character")
  newRequest := fun method url => .ok { Method := method, URL := url, Header := [] }
  clientDo := fun req =>
    if req.URL = "http://localhost:9980/ok" then .ok { StatusCode := 200, ReadAll := ("fine", none) }
    else .ok { StatusCode := 404, ReadAll := ("no such path", none) }
  httpGet := fun url =>
    if url = "http://localhost:9980/ok" then .ok { StatusCode := 200, ReadAll := ("fine", none) }
    else .ok { StatusCode := 404, ReadAll := ("no such path", none) }
  hexString := fun h => String.join (h.map (fun b => (Nat.toDigits 16 b).asString))

/-- A server whose daemon knows a block at height 100 (hash `..0a`), a
transaction (`..0b`), an unknown kind of item (`..0c`), an address (`..0d`), an
output created by that address entry (`..0e`) and an item without a
discriminator (`..0f`). Its range query answers height 100 with an empty list
of summaries and fails for every other height. -/
def fixtureServer : ExploreServer where
  url := "http://localhost:9980"
  apiGetHash := fun h =>
    if h = fixtureHash 10 then .ok "block-100"
    else if h = fixtureHash 11 then .ok "tx"
    else if h = fixtureHash 12 then .ok "foo"
    else if h = fixtureHash 13 then .ok "address"
    else if h = fixtureHash 14 then .ok "output"
    else if h = fixtureHash 15 then .ok "bare"
    else .error "Sia Daemon Returned Non-200: hash not found"
  apiGetBlockData := fun start _ =>
    if start = 100 then .ok []
    else .error "Sia Daemon Returned Non-200: height out of range"
  getBlockRange := fun start _ =>
    if start = 100 then .ok []
    else .error "Sia Daemon Returned Non-200: height out of range"
  parseTemplate := fun name _ => (name, none)
  expectedHashes := fun _ => 0

/-! ## Properties of the scans -/

theorem scanOutputs_eq_none_iff (oID : Hash) (idAt : Nat → Hash) (outputs : List SiacoinOutput)
    (i : Nat) :
    scanOutputs oID idAt i outputs = none ↔ ∀ j, j < outputs.length → idAt (i + j) ≠ oID := by
  induction outputs generalizing i with
  | nil => simp [scanOutputs]
  | cons o rest ih =>
    simp only [scanOutputs, List.length_cons]
    by_cases h : oID = idAt i
    · simp only [h, if_true]
      constructor
      · intro hc; cases hc
      · intro hall
        exact absurd rfl (hall 0 (Nat.succ_pos _))
    · simp only [h, if_false]
      rw [ih (i + 1)]
      constructor
      · intro hall j hj
        cases j with
        | zero => exact fun e => h e.symm
        | succ j =>
          have := hall j (Nat.lt_of_succ_lt_succ hj)
          rwa [Nat.add_assoc, Nat.add_comm 1 j] at this
      · intro hall j hj
        have := hall (j + 1) (Nat.succ_lt_succ hj)
        rwa [Nat.add_assoc, Nat.add_comm 1 j]

theorem scanOutputs_first (oID : Hash) (idAt : Nat → Hash) (outputs : List SiacoinOutput)
    (i j : Nat) (hj : j < outputs.length) (hid : idAt (i + j) = oID)
    (hfirst : ∀ k, k < j → idAt (i + k) ≠ oID) :
    scanOutputs oID idAt i outputs = some (outputs.get ⟨j, hj⟩) := by
  induction outputs generalizing i j with
  | nil => cases hj
  | cons o rest ih =>
    cases j with
    | zero =>
      simp only [scanOutputs]
      rw [if_pos (by simpa using hid.symm)]
      rfl
    | succ j =>
      simp only [scanOutputs]
      have h0 : ¬ oID = idAt i := fun e => hfirst 0 (Nat.succ_pos _) (by simpa using e.symm)
      rw [if_neg h0]
      have hj2 : j < rest.length := Nat.lt_of_succ_lt_succ hj
      rw [ih (i + 1) j hj2 (by rw [← hid]; congr 1; omega)
        (fun k hk => by
          have := hfirst (k + 1) (Nat.succ_lt_succ hk)
          have e : i + 1 + k = i + (k + 1) := by omega
          rw [e]; exact this)]
      rfl

theorem scanOutputs_eq_find (oID : Hash) (idAt : Nat → Hash) (outputs : List SiacoinOutput)
    (i : Nat) :
    scanOutputs oID idAt i outputs =
      ((((outputs.enumFrom i).map (fun p => (idAt p.1, p.2))).find?
        (fun p => decide (oID = p.1))).map (fun p => p.2)) := by
  induction outputs generalizing i with
  | nil => rfl
  | cons o rest ih =>
    simp only [scanOutputs, List.enumFrom_cons, List.map_cons, List.find?_cons]
    by_cases h : oID = idAt i
    · simp [h]
    · simp [h, ih (i + 1)]

theorem scanOutputs_eq_tagged (oID : Hash) (idAt : Nat → Hash) (outputs : List SiacoinOutput) :
    scanOutputs oID idAt 0 outputs =
      ((taggedOutputs idAt outputs).find? (fun p => decide (oID = p.1))).map (fun p => p.2) :=
  scanOutputs_eq_find oID idAt outputs 0

theorem scanFileContracts_eq_find (ids : IDScheme) (oID : Hash) (tx : Transaction)
    (fcs : List FileContract) (i : Nat) :
    scanFileContracts ids oID tx i fcs =
      (((fcs.enumFrom i).flatMap (fun p =>
        taggedOutputs (ids.StorageProofOutputID (ids.FileContractID tx p.1) true)
            p.2.ValidProofOutputs
          ++ taggedOutputs (ids.StorageProofOutputID (ids.FileContractID tx p.1) false)
            p.2.MissedProofOutputs)).find? (fun p => decide (oID = p.1))).map (fun p => p.2) := by
  induction fcs generalizing i with
  | nil => rfl
  | cons fc rest ih =>
    simp only [scanFileContracts, List.enumFrom_cons, List.flatMap_cons, List.find?_append,
      scanOutputs_eq_tagged, ih (i + 1)]
    cases (taggedOutputs (ids.StorageProofOutputID (ids.FileContractID tx i) true)
      fc.ValidProofOutputs).find? (fun p => decide (oID = p.1)) with
    | some a => simp
    | none =>
      cases (taggedOutputs (ids.StorageProofOutputID (ids.FileContractID tx i) false)
        fc.MissedProofOutputs).find? (fun p => decide (oID = p.1)) with
      | some a => simp
      | none => simp

theorem scanRevisions_eq_find (ids : IDScheme) (oID : Hash) (revs : List FileContractRevision) :
    scanRevisions ids oID revs =
      ((revs.flatMap (fun r =>
        taggedOutputs (ids.StorageProofOutputID r.ParentID true) r.NewValidProofOutputs
          ++ taggedOutputs (ids.StorageProofOutputID r.ParentID false)
            r.NewMissedProofOutputs)).find? (fun p => decide (oID = p.1))).map (fun p => p.2) := by
  induction revs with
  | nil => rfl
  | cons r rest ih =>
    simp only [scanRevisions, List.flatMap_cons, List.find?_append, scanOutputs_eq_tagged, ih]
    cases (taggedOutputs (ids.StorageProofOutputID r.ParentID true)
      r.NewValidProofOutputs).find? (fun p => decide (oID = p.1)) with
    | some a => simp
    | none =>
      cases (taggedOutputs (ids.StorageProofOutputID r.ParentID false)
        r.NewMissedProofOutputs).find? (fun p => decide (oID = p.1)) with
      | some a => simp
      | none => simp

theorem findOutputTransaction_eq_firstMatch (ids : IDScheme) (oID : Hash) (tx : Transaction) :
    findOutputTransaction ids oID tx = firstMatch oID (searchSequence ids tx) := by
  simp only [findOutputTransaction, firstMatch, searchSequence, List.find?_append,
    scanOutputs_eq_tagged, scanFileContracts_eq_find, scanRevisions_eq_find, standardCandidates,
    contractCandidates, revisionCandidates, List.enum]
  cases (taggedOutputs (ids.SiacoinOutputID tx) tx.SiacoinOutputs).find?
      (fun p => decide (oID = p.1)) with
  | some a => simp
  | none =>
    simp only [Option.map_none', Option.none_or]
    cases ((tx.FileContracts.enumFrom 0).flatMap (fun p =>
        taggedOutputs (ids.StorageProofOutputID (ids.FileContractID tx p.1) true)
            p.2.ValidProofOutputs
          ++ taggedOutputs (ids.StorageProofOutputID (ids.FileContractID tx p.1) false)
            p.2.MissedProofOutputs)).find? (fun p => decide (oID = p.1)) with
    | some a => simp
    | none =>
      simp only [Option.map_none', Option.none_or]
      cases (tx.FileContractRevisions.flatMap (fun r =>
        taggedOutputs (ids.StorageProofOutputID r.ParentID true) r.NewValidProofOutputs
          ++ taggedOutputs (ids.StorageProofOutputID r.ParentID false)
            r.NewMissedProofOutputs)).find? (fun p => decide (oID = p.1)) with
      | some a => simp
      | none => simp

theorem scanOutputs_zero_eq_none_iff (oID : Hash) (idAt : Nat → Hash)
    (outputs : List SiacoinOutput) :
    scanOutputs oID idAt 0 outputs = none ↔ ∀ j, j < outputs.length → idAt j ≠ oID := by
  simpa using scanOutputs_eq_none_iff oID idAt outputs 0

theorem scanFileContracts_eq_none_iff (ids : IDScheme) (oID : Hash) (tx : Transaction)
    (fcs : List FileContract) (i : Nat) :
    scanFileContracts ids oID tx i fcs = none ↔
      ∀ k fc, fcs[k]? = some fc →
        (∀ j, j < fc.ValidProofOutputs.length →
          ids.StorageProofOutputID (ids.FileContractID tx (i + k)) true j ≠ oID) ∧
        (∀ j, j < fc.MissedProofOutputs.length →
          ids.StorageProofOutputID (ids.FileContractID tx (i + k)) false j ≠ oID) := by
  induction fcs generalizing i with
  | nil => simp [scanFileContracts]
  | cons fc rest ih =>
    have hv := scanOutputs_zero_eq_none_iff oID
      (ids.StorageProofOutputID (ids.FileContractID tx i) true) fc.ValidProofOutputs
    have hm := scanOutputs_zero_eq_none_iff oID
      (ids.StorageProofOutputID (ids.FileContractID tx i) false) fc.MissedProofOutputs
    constructor
    · intro h k fc2 hk
      simp only [scanFileContracts] at h
      cases hsv : scanOutputs oID (ids.StorageProofOutputID (ids.FileContractID tx i) true) 0
          fc.ValidProofOutputs with
      | some o => rw [hsv] at h; cases h
      | none =>
        rw [hsv] at h
        cases hsm : scanOutputs oID (ids.StorageProofOutputID (ids.FileContractID tx i) false) 0
            fc.MissedProofOutputs with
        | some o => rw [hsm] at h; cases h
        | none =>
          rw [hsm] at h
          cases k with
          | zero =>
            simp only [List.getElem?_cons_zero, Option.some.injEq] at hk
            subst hk
            exact ⟨hv.mp hsv, hm.mp hsm⟩
          | succ k =>
            simp only [List.getElem?_cons_succ] at hk
            have := (ih (i + 1)).mp h k fc2 hk
            have e : i + 1 + k = i + (k + 1) := by omega
            rwa [e] at this
    · intro h
      simp only [scanFileContracts]
      have h0 := h 0 fc (by simp)
      rw [hv.mpr h0.1, hm.mpr h0.2]
      apply (ih (i + 1)).mpr
      intro k fc2 hk
      have := h (k + 1) fc2 (by simpa using hk)
      have e : i + 1 + k = i + (k + 1) := by omega
      rwa [e]

theorem scanRevisions_eq_none_iff (ids : IDScheme) (oID : Hash)
    (revs : List FileContractRevision) :
    scanRevisions ids oID revs = none ↔
      ∀ r, r ∈ revs →
        (∀ j, j < r.NewValidProofOutputs.length →
          ids.StorageProofOutputID r.ParentID true j ≠ oID) ∧
        (∀ j, j < r.NewMissedProofOutputs.length →
          ids.StorageProofOutputID r.ParentID false j ≠ oID) := by
  induction revs with
  | nil => simp [scanRevisions]
  | cons r rest ih =>
    have hv := scanOutputs_zero_eq_none_iff oID
      (ids.StorageProofOutputID r.ParentID true) r.NewValidProofOutputs
    have hm := scanOutputs_zero_eq_none_iff oID
      (ids.StorageProofOutputID r.ParentID false) r.NewMissedProofOutputs
    constructor
    · intro h r2 hr2
      simp only [scanRevisions] at h
      cases hsv : scanOutputs oID (ids.StorageProofOutputID r.ParentID true) 0
          r.NewValidProofOutputs with
      | some o => rw [hsv] at h; cases h
      | none =>
        rw [hsv] at h
        cases hsm : scanOutputs oID (ids.StorageProofOutputID r.ParentID false) 0
            r.NewMissedProofOutputs with
        | some o => rw [hsm] at h; cases h
        | none =>
          rw [hsm] at h
          rcases List.mem_cons.mp hr2 with e | hin
          · subst e
            exact ⟨hv.mp hsv, hm.mp hsm⟩
          · exact ih.mp h r2 hin
    · intro h
      simp only [scanRevisions]
      have h0 := h r (List.mem_cons_self _ _)
      rw [hv.mpr h0.1, hm.mpr h0.2]
      exact ih.mpr (fun r2 hr2 => h r2 (List.mem_cons_of_mem _ hr2))

/-- The result of `findOutputTransaction` is an output with a nil error or the
zero output with the not-found error, according to the three scans. -/
theorem findOutputTransaction_error_iff_scans (ids : IDScheme) (oID : Hash) (tx : Transaction) :
    (findOutputTransaction ids oID tx).2 = some "output not found in transaction" ↔
      scanOutputs oID (ids.SiacoinOutputID tx) 0 tx.SiacoinOutputs = none ∧
      scanFileContracts ids oID tx 0 tx.FileContracts = none ∧
      scanRevisions ids oID tx.FileContractRevisions = none := by
  unfold findOutputTransaction
  cases scanOutputs oID (ids.SiacoinOutputID tx) 0 tx.SiacoinOutputs with
  | some o => simp
  | none =>
    cases scanFileContracts ids oID tx 0 tx.FileContracts with
    | some o => simp
    | none =>
      cases scanRevisions ids oID tx.FileContractRevisions with
      | some o => simp
      | none => simp

theorem findOutputTransaction_shape (ids : IDScheme) (oID : Hash) (tx : Transaction) :
    (findOutputTransaction ids oID tx).2 = none ∨
      findOutputTransaction ids oID tx =
        (SiacoinOutput.zero, some "output not found in transaction") := by
  unfold findOutputTransaction
  cases scanOutputs oID (ids.SiacoinOutputID tx) 0 tx.SiacoinOutputs with
  | some o => simp
  | none =>
    cases scanFileContracts ids oID tx 0 tx.FileContracts with
    | some o => simp
    | none =>
      cases scanRevisions ids oID tx.FileContractRevisions with
      | some o => simp
      | none => simp

/-! ### The claims about the output resolver -/

/-- C2. The function `findOutputTransaction` is a first-match search over the
sequence (a) standard outputs by index, (b) per file contract its valid then
its missed proof outputs, (c) per revision its new valid then its new missed
proof outputs under the declared `ParentID`. In particular, in a transaction
with one file contract, no standard output and a missed proof output at
index 0 whose ID differs from every valid-proof ID, looking up that ID returns
that missed proof output. -/
theorem findOutputTransaction_first_match (ids : IDScheme) :
    (∀ (oID : Hash) (tx : Transaction),
      findOutputTransaction ids oID tx = firstMatch oID (searchSequence ids tx)) ∧
    (∀ (tx : Transaction) (fc : FileContract) (missed : SiacoinOutput)
        (others : List SiacoinOutput),
      tx.SiacoinOutputs = [] → tx.FileContracts = [fc] →
      fc.MissedProofOutputs = missed :: others →
      (∀ j, j < fc.ValidProofOutputs.length →
        ids.StorageProofOutputID (ids.FileContractID tx 0) true j ≠
          ids.StorageProofOutputID (ids.FileContractID tx 0) false 0) →
      findOutputTransaction ids
        (ids.StorageProofOutputID (ids.FileContractID tx 0) false 0) tx = (missed, none)) := by
  refine ⟨fun oID tx => findOutputTransaction_eq_firstMatch ids oID tx, ?_⟩
  intro tx fc missed others hstd hfc hmissed hvalid
  have hv := (scanOutputs_zero_eq_none_iff
    (ids.StorageProofOutputID (ids.FileContractID tx 0) false 0)
    (ids.StorageProofOutputID (ids.FileContractID tx 0) true) fc.ValidProofOutputs).mpr hvalid
  simp only [findOutputTransaction, hstd, hfc, scanOutputs, scanFileContracts, hv, hmissed,
    if_true]

theorem findOutputTransaction_first_match_witness :
    findOutputTransaction fixtureIDs
      (fixtureIDs.StorageProofOutputID (fixtureIDs.FileContractID contractOnlyTx 0) false 0)
      contractOnlyTx = (outC, none) :=
  (findOutputTransaction_first_match fixtureIDs).2 contractOnlyTx
    { ValidProofOutputs := [outA, outB], MissedProofOutputs := [outC] } outC [] rfl rfl rfl
    (by decide)

/-- C3. The function `findOutputTransaction` fails exactly when the search is
exhausted: it returns the error "output not found in transaction" if and only
if no standard output, no valid or missed proof output of a file contract and
no new valid or new missed proof output of a revision derives the target ID;
the error comes with the zero output, and in every other case the error is
nil. -/
theorem findOutputTransaction_not_found_iff (ids : IDScheme) (oID : Hash) (tx : Transaction) :
    ((findOutputTransaction ids oID tx).2 = some "output not found in transaction" ↔
      (∀ i, i < tx.SiacoinOutputs.length → ids.SiacoinOutputID tx i ≠ oID) ∧
      (∀ k fc, tx.FileContracts[k]? = some fc →
        (∀ j, j < fc.ValidProofOutputs.length →
          ids.StorageProofOutputID (ids.FileContractID tx k) true j ≠ oID) ∧
        (∀ j, j < fc.MissedProofOutputs.length →
          ids.StorageProofOutputID (ids.FileContractID tx k) false j ≠ oID)) ∧
      (∀ r, r ∈ tx.FileContractRevisions →
        (∀ j, j < r.NewValidProofOutputs.length →
          ids.StorageProofOutputID r.ParentID true j ≠ oID) ∧
        (∀ j, j < r.NewMissedProofOutputs.length →
          ids.StorageProofOutputID r.ParentID false j ≠ oID))) ∧
    ((findOutputTransaction ids oID tx).2 = none ∨
      findOutputTransaction ids oID tx =
        (SiacoinOutput.zero, some "output not found in transaction")) := by
  refine ⟨?_, findOutputTransaction_shape ids oID tx⟩
  rw [findOutputTransaction_error_iff_scans, scanOutputs_zero_eq_none_iff,
    scanFileContracts_eq_none_iff, scanRevisions_eq_none_iff]
  simp only [Nat.zero_add]

theorem findOutputTransaction_not_found_iff_witness :
    (∀ i, i < fixtureTx.SiacoinOutputs.length → fixtureIDs.SiacoinOutputID fixtureTx i ≠ [7]) ∧
    (findOutputTransaction fixtureIDs (fixtureIDs.SiacoinOutputID fixtureTx 0) fixtureTx).2 =
      none :=
  ⟨((findOutputTransaction_not_found_iff fixtureIDs [7] fixtureTx).1.mp (by decide)).1,
   (findOutputTransaction_not_found_iff fixtureIDs (fixtureIDs.SiacoinOutputID fixtureTx 0)
      fixtureTx).2.resolve_right (by decide)⟩

/-- C9. The function `findOutputBlock` searches the miner payouts by derived
ID: it returns the payout at the smallest index whose `MinerPayoutID` is the
target, with a nil error, and it returns the error "output not found in block"
if and only if no payout index derives the target. -/
theorem findOutputBlock_first_payout (ids : IDScheme) (oID : Hash) (b : Block) :
    (∀ (i : Nat) (hi : i < b.MinerPayouts.length), ids.MinerPayoutID b i = oID →
      (∀ j, j < i → ids.MinerPayoutID b j ≠ oID) →
      findOutputBlock ids oID b = (b.MinerPayouts.get ⟨i, hi⟩, none)) ∧
    ((findOutputBlock ids oID b).2 = some "output not found in block" ↔
      ∀ i, i < b.MinerPayouts.length → ids.MinerPayoutID b i ≠ oID) ∧
    ((findOutputBlock ids oID b).2 = none ∨
      findOutputBlock ids oID b = (SiacoinOutput.zero, some "output not found in block")) := by
  refine ⟨?_, ?_, ?_⟩
  · intro i hi hid hfirst
    unfold findOutputBlock
    rw [scanOutputs_first oID (ids.MinerPayoutID b) b.MinerPayouts 0 i hi (by simpa using hid)
      (by simpa using hfirst)]
  · rw [← scanOutputs_zero_eq_none_iff]
    unfold findOutputBlock
    cases scanOutputs oID (ids.MinerPayoutID b) 0 b.MinerPayouts with
    | some o => simp
    | none => simp
  · unfold findOutputBlock
    cases scanOutputs oID (ids.MinerPayoutID b) 0 b.MinerPayouts with
    | some o => simp
    | none => simp

theorem findOutputBlock_first_payout_witness :
    findOutputBlock fixtureIDs (fixtureIDs.MinerPayoutID fixtureBlock 1) fixtureBlock =
      (outB, none) :=
  (findOutputBlock_first_payout fixtureIDs (fixtureIDs.MinerPayoutID fixtureBlock 1)
    fixtureBlock).1 1 (by decide) rfl (by decide)

/-! ### The claims about the end-to-end lookup and the dispatch -/

/-- C4. What `findOutput` does when the entity named by the output response is
classified as neither "Block" nor "Transaction": the switch is left without a
case taken and the bare `return` hands back the zero output together with a
nil error. The specification asks for a non-nil error here. The second part runs the
code on the fixture, where the containing entity of output `..0e` is an
address entry. -/
theorem findOutput_unclassified_container :
    (∀ (rt : Runtime) (es : ExploreServer) (ids : IDScheme) (oID : Hash) (outJSON : String)
        (resp : OutputResponse) (itemJSON : String) (rd : responseData),
      es.apiGetHash oID = .ok outJSON → rt.unmarshalOutputResponse outJSON = .ok resp →
      es.apiGetHash resp.OutputTx = .ok itemJSON → rt.unmarshalResponseData itemJSON = .ok rd →
      rd.ResponseType ≠ "Block" → rd.ResponseType ≠ "Transaction" →
      findOutput rt es ids oID = (SiacoinOutput.zero, none)) ∧
    findOutput fixtureRuntime fixtureServer fixtureIDs (fixtureHash 14) =
      (SiacoinOutput.zero, none) := by
  refine ⟨?_, by decide⟩
  intro rt es ids oID outJSON resp itemJSON rd h1 h2 h3 h4 hb ht
  simp only [findOutput, h1, h2, h3, h4, if_neg hb, if_neg ht]

/-- C5. What block assembly does when the one-element range query succeeds
with zero summaries: both `blockPage` and the "Block" branch of
`parseTransaction` evaluate `blockSummaries[0]` on the empty slice and panic;
no upstream error is produced. The last two parts run the code on the fixture,
whose block at height 100 has no summary. -/
theorem block_assembly_empty_summaries :
    (∀ (rt : Runtime) (es : ExploreServer) (blockJSON : String) (b : BlockResponse),
      rt.unmarshalBlockResponse blockJSON = .ok b →
      es.apiGetBlockData b.Height (nextHeight b.Height) = .ok [] →
      blockPage rt es blockJSON = .panic indexOutOfRange) ∧
    (∀ (rt : Runtime) (es : ExploreServer) (hash : Hash) (itemJSON : String) (rd : responseData)
        (b : BlockResponse),
      hash ≠ zeroHash → es.apiGetHash hash = .ok itemJSON →
      rt.unmarshalResponseData itemJSON = .ok rd → rd.ResponseType = "Block" →
      rt.unmarshalBlockResponse itemJSON = .ok b →
      es.apiGetBlockData b.Height (nextHeight b.Height) = .ok [] →
      parseTransaction rt es hash = .panicked indexOutOfRange) ∧
    blockPage fixtureRuntime fixtureServer "block-100" = .panic indexOutOfRange ∧
    parseTransaction fixtureRuntime fixtureServer (fixtureHash 10) =
      .panicked indexOutOfRange := by
  refine ⟨?_, ?_, by decide, by decide⟩
  · intro rt es blockJSON b h1 h2
    simp only [blockPage, h1, h2]
  · intro rt es hash itemJSON rd b h0 h1 h2 h3 h4 h5
    simp only [parseTransaction, if_neg h0, h1, h2, h3, h4, h5, if_true]

/-- C6. The dispatch of `hashPageHandler` is decided by the `ResponseType`
discriminator alone: once the hash is scanned, fetched and its envelope
decoded, "Block" yields the reply of `blockPage`, "Transaction" that of
`txPage`, "Output" that of `outputPage`, "Address" that of `addressPage`,
"FileContract" that of `contractPage`, and every other value (a missing one
decodes to the empty string) yields `http.Error` with status 500 whatever the
five page builders are, so none of them is consulted. -/
theorem hashPageHandler_dispatch (rt : Runtime) (es : ExploreServer) (form : String)
    (hash : List Nat) (itemJSON : String) (rd : responseData)
    (hscan : rt.sscanHex form = .ok hash) (hget : es.apiGetHash hash = .ok itemJSON)
    (hrd : rt.unmarshalResponseData itemJSON = .ok rd) :
    (∀ pb : PageBuilders,
      (rd.ResponseType = "Block" → hashPageHandlerWith rt es pb form = pb.blockPage itemJSON) ∧
      (rd.ResponseType = "Transaction" →
        hashPageHandlerWith rt es pb form = pb.txPage itemJSON) ∧
      (rd.ResponseType = "Output" →
        hashPageHandlerWith rt es pb form = pb.outputPage itemJSON hash) ∧
      (rd.ResponseType = "Address" →
        hashPageHandlerWith rt es pb form = pb.addressPage itemJSON hash) ∧
      (rd.ResponseType = "FileContract" →
        hashPageHandlerWith rt es pb form = pb.contractPage itemJSON hash) ∧
      (rd.ResponseType ∉ ["Block", "Transaction", "Output", "Address", "FileContract"] →
        hashPageHandlerWith rt es pb form = .httpError ("siad returned: " ++ itemJSON) 500)) ∧
    (rd.ResponseType = "Block" → hashPageHandler rt es form = blockPage rt es itemJSON) ∧
    (rd.ResponseType = "Transaction" → hashPageHandler rt es form = txPage rt es itemJSON) ∧
    (rd.ResponseType = "Output" → hashPageHandler rt es form = outputPage rt es itemJSON hash) ∧
    (rd.ResponseType = "Address" →
      hashPageHandler rt es form = addressPage rt es itemJSON hash) ∧
    (rd.ResponseType = "FileContract" →
      hashPageHandler rt es form = contractPage rt es itemJSON hash) ∧
    (rd.ResponseType ∉ ["Block", "Transaction", "Output", "Address", "FileContract"] →
      hashPageHandler rt es form = .httpError ("siad returned: " ++ itemJSON) 500 ∧
      (hashPageHandler rt es form).status = some 500) := by
  have key : ∀ pb : PageBuilders,
      (rd.ResponseType = "Block" → hashPageHandlerWith rt es pb form = pb.blockPage itemJSON) ∧
      (rd.ResponseType = "Transaction" →
        hashPageHandlerWith rt es pb form = pb.txPage itemJSON) ∧
      (rd.ResponseType = "Output" →
        hashPageHandlerWith rt es pb form = pb.outputPage itemJSON hash) ∧
      (rd.ResponseType = "Address" →
        hashPageHandlerWith rt es pb form = pb.addressPage itemJSON hash) ∧
      (rd.ResponseType = "FileContract" →
        hashPageHandlerWith rt es pb form = pb.contractPage itemJSON hash) ∧
      (rd.ResponseType ∉ ["Block", "Transaction", "Output", "Address", "FileContract"] →
        hashPageHandlerWith rt es pb form =
          .httpError ("siad returned: " ++ itemJSON) 500) := by
    intro pb
    refine ⟨?_, ?_, ?_, ?_, ?_, ?_⟩
    · intro h
      simp only [hashPageHandlerWith, hscan, hget, hrd, h, if_true]
    · intro h
      simp [hashPageHandlerWith, hscan, hget, hrd, h]
    · intro h
      simp [hashPageHandlerWith, hscan, hget, hrd, h]
    · intro h
      simp [hashPageHandlerWith, hscan, hget, hrd, h]
    · intro h
      simp [hashPageHandlerWith, hscan, hget, hrd, h]
    · intro h
      simp only [List.mem_cons, List.mem_singleton, List.not_mem_nil, or_false, not_or] at h
      simp only [hashPageHandlerWith, hscan, hget, hrd, if_neg h.1, if_neg h.2.1,
        if_neg h.2.2.1, if_neg h.2.2.2.1, if_neg h.2.2.2.2]
  have k := key (es.pages rt)
  refine ⟨key, k.1, k.2.1, k.2.2.1, k.2.2.2.1, k.2.2.2.2.1, ?_⟩
  intro h
  have e : hashPageHandler rt es form = .httpError ("siad returned: " ++ itemJSON) 500 :=
    k.2.2.2.2.2 h
  exact ⟨e, by rw [e]; rfl⟩

theorem hashPageHandler_dispatch_witness :
    hashPageHandler fixtureRuntime fixtureServer "0b" = txPage fixtureRuntime fixtureServer "tx" ∧
    hashPageHandler fixtureRuntime fixtureServer "0c" = .httpError "siad returned: foo" 500 :=
  ⟨(hashPageHandler_dispatch fixtureRuntime fixtureServer "0b" (fixtureHash 11) "tx"
      { ResponseType := "Transaction" } rfl rfl rfl).2.2.1 rfl,
   ((hashPageHandler_dispatch fixtureRuntime fixtureServer "0c" (fixtureHash 12) "foo"
      { ResponseType := "Foo" } rfl rfl rfl).2.2.2.2.2.2
      (by decide)).1⟩

/-- C7. What `parseTransaction` does for a non-zero hash whose payload carries
a discriminator other than "Block" and "Transaction" (a missing one decodes to
the empty string): the switch takes no case and the function returns an empty
result with a nil error. The specification asks for a non-nil error here. The last two
parts run the code on the fixture, for the discriminator "Foo" and for a
missing discriminator. -/
theorem parseTransaction_unrecognized :
    (∀ (rt : Runtime) (es : ExploreServer) (hash : Hash) (itemJSON : String) (rd : responseData),
      hash ≠ zeroHash → es.apiGetHash hash = .ok itemJSON →
      rt.unmarshalResponseData itemJSON = .ok rd →
      rd.ResponseType ≠ "Block" → rd.ResponseType ≠ "Transaction" →
      parseTransaction rt es hash = .returned ("", none)) ∧
    parseTransaction fixtureRuntime fixtureServer (fixtureHash 12) = .returned ("", none) ∧
    parseTransaction fixtureRuntime fixtureServer (fixtureHash 15) = .returned ("", none) := by
  refine ⟨?_, by decide, by decide⟩
  intro rt es hash itemJSON rd h0 h1 h2 hb ht
  simp only [parseTransaction, if_neg h0, h1, h2, if_neg hb, if_neg ht]

/-- C10. What the height lookups do when the range query `[h, h+1)` fails with
an error `e`: `getBlockByHeight` writes status 500, but `heightHandler` answers
with `http.Error(w, e, http.StatusBadRequest)`, status 400. The specification
asks for a 5xx status from both. The last part runs `heightHandler` on the fixture, whose
range query fails at height 7. -/
theorem heightHandler_upstream_failure :
    (∀ (rt : Runtime) (es : ExploreServer) (form : String) (height : Nat) (e : String),
      rt.sscanDec form = .ok height →
      es.apiGetBlockData height (nextHeight height) = .error e →
      heightHandler rt es form = .httpError e 400) ∧
    (∀ (rt : Runtime) (es : ExploreServer) (var : String) (height : Nat) (e : String),
      rt.sscanDec var = .ok height →
      es.getBlockRange height (nextHeight height) = .error e →
      getBlockByHeight rt es var = .writeHeader 500 e) ∧
    (heightHandler fixtureRuntime fixtureServer "7").status = some 400 ∧
    (getBlockByHeight fixtureRuntime fixtureServer "7").status = some 500 := by
  refine ⟨?_, ?_, by decide, by decide⟩
  · intro rt es form height e h1 h2
    simp only [heightHandler, h1, h2]
  · intro rt es var height e h1 h2
    simp only [getBlockByHeight, h1, h2]

/-! ## Properties of the query string -/

theorem intercalate_go_append (x y s : String) (l : List String) :
    String.intercalate.go (x ++ y) s l = x ++ String.intercalate.go y s l := by
  induction l generalizing y with
  | nil => rfl
  | cons c l ih =>
    simp only [String.intercalate.go]
    rw [String.append_assoc x y s, String.append_assoc x (y ++ s) c, ih]

theorem intercalate_cons_cons (s a b : String) (l : List String) :
    String.intercalate s (a :: b :: l) = a ++ s ++ String.intercalate s (b :: l) := by
  simp only [String.intercalate, String.intercalate.go]
  rw [intercalate_go_append]

theorem queryLoop_eq_intercalate (n : Nat) (rest : List parameter) (apiCall : String) (i : Nat)
    (hlen : i + rest.length = n) :
    queryLoop n apiCall i rest =
      apiCall ++ String.intercalate "&" (rest.map (fun p => p.Key ++ "=" ++ p.Value)) := by
  induction rest generalizing apiCall i with
  | nil => simp [queryLoop, String.intercalate]
  | cons param rest ih =>
    simp only [List.length_cons] at hlen
    cases rest with
    | nil =>
      have hlast : ¬ ((i : Int) ≠ (n : Int) - 1) := by
        simp only [List.length_nil] at hlen
        omega
      simp only [queryLoop, if_neg hlast, List.map_cons, List.map_nil, String.intercalate,
        String.intercalate.go]
    | cons next rest =>
      have hmore : (i : Int) ≠ (n : Int) - 1 := by
        simp only [List.length_cons] at hlen
        omega
      rw [queryLoop, if_pos hmore, ih _ (i + 1) (by simp only [List.length_cons] at hlen ⊢; omega)]
      simp only [List.map_cons]
      rw [intercalate_cons_cons]
      simp only [String.append_assoc]

theorem queryPath_eq_renderQuery (apiCall : String) (parameters : List parameter) :
    queryPath apiCall parameters = renderQuery apiCall parameters :=
  queryLoop_eq_intercalate parameters.length parameters (apiCall ++ "?") 0 (by simp)

theorem Itoa_intOfBlockHeight (h : Nat) (hh : h < 2 ^ 63) :
    Itoa (intOfBlockHeight h) = Nat.repr h := by
  have hmod : h % 2 ^ 64 = h := Nat.mod_eq_of_lt (by omega)
  simp only [intOfBlockHeight, hmod, if_pos hh]
  rfl

/-! ### The claim about the query string -/

/-- C11. The method `ApiLink.Query` hands to `Get` the path followed by "?" and
the pairs "key=value" in list order joined by single "&" (for the empty list
the path followed by "?"), and `GetBlockData(start, end)` requests
"/blockexplorer/blockdata?start=<start>&finish=<end>" with both heights in
decimal as long as they are below `2^63`. The heights are rendered through
`strconv.Itoa(int(h))`: from `2^63` on the conversion to `int` is negative and
the request carries a minus sign, where the specification asks for the
height in decimal; the last part runs `GetBlockData(2^63, 2^63 + 1)`. -/
theorem Query_builds_query_string :
    (∀ (apiCall : String) (parameters : List parameter),
      queryPath apiCall parameters = renderQuery apiCall parameters) ∧
    (∀ (rt : Runtime) (link : ApiLink) (apiCall : String) (parameters : List parameter),
      ApiLink.Query rt link apiCall parameters =
        ApiLink.Get rt link (renderQuery apiCall parameters)) ∧
    (∀ apiCall : String, queryPath apiCall [] = apiCall ++ "?") ∧
    (∀ (rt : Runtime) (link : ApiLink) (start end_ : Nat), start < 2 ^ 63 → end_ < 2 ^ 63 →
      ApiLink.GetBlockData rt link start end_ =
        decodeBlockData rt (ApiLink.Get rt link
          ("/blockexplorer/blockdata" ++ "?" ++
            ("start=" ++ Nat.repr start ++ "&" ++ ("finish=" ++ Nat.repr end_))))) ∧
    (∀ (rt : Runtime) (link : ApiLink),
      ApiLink.GetBlockData rt link (2 ^ 63) (2 ^ 63 + 1) =
        decodeBlockData rt (ApiLink.Get rt link
          "/blockexplorer/blockdata?start=-9223372036854775808&finish=-9223372036854775807")) ∧
    queryPath "/blockexplorer/blockdata"
        [{ Key := "start", Value := Itoa (intOfBlockHeight 100) },
         { Key := "finish", Value := Itoa (intOfBlockHeight 101) }] =
      "/blockexplorer/blockdata?start=100&finish=101" := by
  refine ⟨queryPath_eq_renderQuery, ?_, ?_, ?_, ?_, by decide⟩
  · intro rt link apiCall parameters
    simp only [ApiLink.Query, queryPath_eq_renderQuery]
  · intro apiCall
    simp [queryPath, queryLoop]
  · intro rt link start end_ hs he
    simp only [ApiLink.GetBlockData, ApiLink.Query, queryPath_eq_renderQuery, renderQuery,
      List.map_cons, List.map_nil, Itoa_intOfBlockHeight start hs, Itoa_intOfBlockHeight end_ he,
      intercalate_cons_cons, String.intercalate, String.intercalate.go]
    have e1 : ("start" ++ "=" : String) = "start=" := by decide
    have e2 : ("finish" ++ "=" : String) = "finish=" := by decide
    rw [e1, e2]
  · intro rt link
    have hpath : queryPath "/blockexplorer/blockdata"
        [{ Key := "start", Value := Itoa (intOfBlockHeight (2 ^ 63)) },
         { Key := "finish", Value := Itoa (intOfBlockHeight (2 ^ 63 + 1)) }] =
        "/blockexplorer/blockdata?start=-9223372036854775808&finish=-9223372036854775807" := by
      decide
    simp only [ApiLink.GetBlockData, ApiLink.Query, hpath]

end BlockExplorer
